import Mathlib

/-!
Verification of the TaskFlow task-manager against its specification.

The data model and the operations below are shallow embeddings of the
TypeScript sources: `server/src/models/Task.ts` (task schema, validators,
the `isOverdue` virtual, the `findOverdue` static, the tag-normalising
pre-save hook), the `ActivityLog` model (`logActivity`), and
`client/src/utils/index.ts` (`isOverdue`).  The task and user controllers
are not part of the sources; where a claim depends on them they are
modelled from the specification, with a doc comment saying so.

Dates are modelled as natural numbers (milliseconds since the epoch);
`now` is passed explicitly wherever the code calls `new Date()`.
-/

namespace TaskFlow

/-- The `TaskStatus` enum from `types`: todo, in-progress, done. -/
inductive TaskStatus where
  | todo
  | inProgress
  | done
deriving Repr, DecidableEq

/-- The `TaskPriority` enum from `types`: low, medium, high, urgent. -/
inductive TaskPriority where
  | low
  | medium
  | high
  | urgent
deriving Repr, DecidableEq

/-- The `UserRole` enum from `types`: admin, member. -/
inductive UserRole where
  | admin
  | member
deriving Repr, DecidableEq

/-- The `ActivityAction` enum from `types` (see the activity-log schema and the
spec data model): created, updated, deleted, status_changed, assigned,
unassigned. -/
inductive ActivityAction where
  | created
  | updated
  | deleted
  | status_changed
  | assigned
  | unassigned
deriving Repr, DecidableEq

/-- A persisted Task document (`taskSchema` in `Task.ts`): title (required),
optional description, status, priority, optional due date, tags, and the
required `assignee` and `createdBy` user references (user ids as `Nat`). -/
structure Task where
  title : String
  description : Option String
  status : TaskStatus
  priority : TaskPriority
  dueDate : Option Nat
  tags : List String
  assignee : Nat
  createdBy : Nat
deriving Repr, DecidableEq

/-- The `isOverdue` virtual of `Task.ts`:
`this.dueDate && this.dueDate < new Date() && this.status !== DONE`.
A missing due date is falsy, so the virtual yields false. -/
def isOverdue (t : Task) (now : Nat) : Bool :=
  match t.dueDate with
  | none => false
  | some d => decide (d < now) && !(t.status == TaskStatus.done)

/-- The `findOverdue` static of `Task.ts`: the query
`{ dueDate: { $lt: now }, status: { $ne: DONE } }` over a collection,
modelled as a filter over a list of tasks (a document with no `dueDate`
does not match `$lt`). -/
def findOverdue (tasks : List Task) (now : Nat) : List Task :=
  tasks.filter fun t =>
    (match t.dueDate with
     | none => false
     | some d => decide (d < now)) && !(t.status == TaskStatus.done)

/-- JavaScript `String.prototype.trim`: strip whitespace from both ends. -/
def jsTrim (s : String) : String :=
  String.mk (((s.data.dropWhile Char.isWhitespace).reverse.dropWhile Char.isWhitespace).reverse)

/-- JavaScript `String.prototype.toLowerCase`, on the ASCII range the
repository uses. -/
def jsToLower (s : String) : String :=
  String.mk (s.data.map Char.toLower)

/-- The tag-normalising `pre("save")` hook of `Task.ts`:
`tags.map(t => t.toLowerCase().trim()).filter((t, i, arr) => t && arr.indexOf(t) === i)` —
lower-case and trim each tag, then keep only non-empty first occurrences. -/
def normalizeTags (tags : List String) : List String :=
  let mapped := tags.map fun t => jsTrim (jsToLower t)
  (mapped.enum.filter fun p => !(p.2 == "") && mapped.indexOf p.2 == p.1).map Prod.snd

/-- The validation messages of `taskSchema`, collected in schema order, for a
document whose fields are already through the `trim` setters.  Mongoose runs
every validator on every `save`, so this is shared by creation and update. -/
def validateTask (t : Task) (now : Nat) : List String :=
  (if t.title = "" then ["Task title is required"] else [])
    ++ (if 200 < t.title.length then ["Title cannot exceed 200 characters"] else [])
    ++ (match t.description with
        | some s => if 2000 < s.length then ["Description cannot exceed 2000 characters"] else []
        | none => [])
    ++ (match t.dueDate with
        | some d => if now < d then [] else ["Due date must be in the future"]
        | none => [])
    ++ (if 10 < t.tags.length then ["Cannot have more than 10 tags"] else [])

/-- A `save()` of a Task document: run all schema validators (mongoose
validation is a built-in pre-save step that runs before user hooks), then
the tag-normalising `pre("save")` hook, then persist. Returns the stored
document or the list of validation messages. -/
def saveTask (t : Task) (now : Nat) : Except (List String) Task :=
  let errs := validateTask t now
  if errs = [] then
    Except.ok { t with tags := normalizeTags t.tags }
  else
    Except.error errs

/-- The request body for task creation: every schema field is optional in
the incoming JSON; `assignee` and `createdBy` are required by the schema. -/
structure TaskInput where
  title : Option String
  description : Option String
  status : Option TaskStatus
  priority : Option TaskPriority
  dueDate : Option Nat
  tags : Option (List String)
  assignee : Option Nat
deriving Repr, DecidableEq

/-- Validation phase of `Task.create` on `taskSchema`: apply the `trim`
setters, fill in the schema defaults (`status=todo`, `priority=medium`,
`tags=[]`), and run all validators — including the required checks on
`title`, `assignee` and `createdBy` — collecting every message in schema
order. -/
def createErrors (input : TaskInput) (createdBy : Option Nat) (now : Nat) :
    List String :=
  (match input.title.map jsTrim with
   | none => ["Task title is required"]
   | some s =>
     (if s = "" then ["Task title is required"] else [])
       ++ (if 200 < s.length then ["Title cannot exceed 200 characters"] else []))
    ++ (match input.description.map jsTrim with
        | some s => if 2000 < s.length then ["Description cannot exceed 2000 characters"] else []
        | none => [])
    ++ (match input.dueDate with
        | some d => if now < d then [] else ["Due date must be in the future"]
        | none => [])
    ++ (if 10 < (input.tags.getD []).length then ["Cannot have more than 10 tags"] else [])
    ++ (if input.assignee.isNone then ["Assignee is required"] else [])
    ++ (if createdBy.isNone then ["Created by is required"] else [])

/-- The creation result: validation failure carries the collected messages
(`createErrors`); success stores the document built from the trimmed
fields, the defaults and the normalised tags. -/
def createTask (input : TaskInput) (createdBy : Option Nat) (now : Nat) :
    Except (List String) Task :=
  if createErrors input createdBy now = [] then
    match input.title.map jsTrim, input.assignee, createdBy with
    | some tt, some a, some c =>
        Except.ok
          { title := tt, description := input.description.map jsTrim,
            status := input.status.getD TaskStatus.todo,
            priority := input.priority.getD TaskPriority.medium,
            dueDate := input.dueDate, tags := normalizeTags (input.tags.getD []),
            assignee := a, createdBy := c }
    | _, _, _ => Except.error (createErrors input createdBy now)
  else
    Except.error (createErrors input createdBy now)

/-- One `{field: {from, to}}` pair of an ActivityLog `changes` payload;
values are rendered as strings. -/
structure Change where
  field : String
  fromVal : String
  toVal : String
deriving Repr, DecidableEq

/-- An ActivityLog document (`activityLogSchema`): task ref, user ref,
action, optional `changes` payload (the schema default is `null`), and a
timestamp. -/
structure ActivityEntry where
  taskId : Nat
  userId : Nat
  action : ActivityAction
  changes : Option (List Change)
  timestamp : Nat
deriving Repr, DecidableEq

/-- The `logActivity` static of the ActivityLog model: create one entry
with the given task, user, action and `changes || null`, stamped `now`. -/
def logActivity (taskId userId : Nat) (action : ActivityAction)
    (changes : Option (List Change)) (now : Nat) : ActivityEntry :=
  { taskId := taskId, userId := userId, action := action,
    changes := changes, timestamp := now }

/-- Actions of the permission policy (spec §4.1). -/
inductive TaskAction where
  | read
  | update
  | delete
deriving Repr, DecidableEq

/-- Modelled from the spec: the permission policy `canPerform` of the task
controller, which is missing from the sources (only its tests are present).
Spec §4.1: admin may perform any action on any task; a member may
read/update a task only as its assignee or creator; only an admin may
delete a task. -/
def canPerform (role : UserRole) (actorId : Nat) (t : Task) (a : TaskAction) : Bool :=
  match role with
  | UserRole.admin => true
  | UserRole.member =>
    match a with
    | TaskAction.delete => false
    | _ => actorId == t.assignee || actorId == t.createdBy

/-- Typed errors of the workflow layer (spec §7): ValidationError (400),
PermissionError (403), NotFoundError (404). -/
inductive WorkflowError where
  | validation (msgs : List String)
  | permission
  | notFound
deriving Repr, DecidableEq

/-- The HTTP status the boundary translator maps each workflow error to
(spec §7). -/
def WorkflowError.httpStatus : WorkflowError → Nat
  | WorkflowError.validation _ => 400
  | WorkflowError.permission => 403
  | WorkflowError.notFound => 404

/-- A PATCH body for a task: each present field replaces the stored one. -/
structure TaskPatch where
  title : Option String
  description : Option String
  status : Option TaskStatus
  priority : Option TaskPriority
  dueDate : Option Nat
  tags : Option (List String)
  assignee : Option Nat
deriving Repr, DecidableEq

/-- Apply a patch to a stored task: a present field overwrites, an absent
one keeps the stored value. -/
def applyPatch (t : Task) (p : TaskPatch) : Task :=
  { title := p.title.getD t.title,
    description := match p.description with
      | some s => some s
      | none => t.description,
    status := p.status.getD t.status,
    priority := p.priority.getD t.priority,
    dueDate := match p.dueDate with
      | some d => some d
      | none => t.dueDate,
    tags := p.tags.getD t.tags,
    assignee := p.assignee.getD t.assignee,
    createdBy := t.createdBy }

/-- Render a task field value for the `changes` payload. -/
def renderOptNat : Option Nat → String
  | none => ""
  | some n => toString n

/-- Render a `TaskStatus` the way it is spelled in the API. -/
def TaskStatus.toStr : TaskStatus → String
  | TaskStatus.todo => "todo"
  | TaskStatus.inProgress => "in-progress"
  | TaskStatus.done => "done"

/-- Render a `TaskPriority` the way it is spelled in the API. -/
def TaskPriority.toStr : TaskPriority → String
  | TaskPriority.low => "low"
  | TaskPriority.medium => "medium"
  | TaskPriority.high => "high"
  | TaskPriority.urgent => "urgent"

/-- Modelled from the spec: the field-level diff the missing task controller
computes between the old and the patched task (spec §4.2: "computes a
field-level diff between old and patched values"), one `{from,to}` pair per
modified attribute, in schema field order. -/
def computeChanges (old new : Task) : List Change :=
  (if old.title == new.title then []
   else [⟨"title", old.title, new.title⟩])
    ++ (if old.description == new.description then []
        else [⟨"description", (old.description).getD "", (new.description).getD ""⟩])
    ++ (if old.status == new.status then []
        else [⟨"status", old.status.toStr, new.status.toStr⟩])
    ++ (if old.priority == new.priority then []
        else [⟨"priority", old.priority.toStr, new.priority.toStr⟩])
    ++ (if old.dueDate == new.dueDate then []
        else [⟨"dueDate", renderOptNat old.dueDate, renderOptNat new.dueDate⟩])
    ++ (if old.tags == new.tags then []
        else [⟨"tags", String.intercalate "," old.tags, String.intercalate "," new.tags⟩])
    ++ (if old.assignee == new.assignee then []
        else [⟨"assignee", toString old.assignee, toString new.assignee⟩])

/-- Modelled from the spec: the action recorded for an update — `updated`,
or `status_changed` / `assigned` when exactly that one field changed
(spec §4.2). -/
def actionForChanges (cs : List Change) : ActivityAction :=
  match cs with
  | [c] =>
    if c.field = "status" then ActivityAction.status_changed
    else if c.field = "assignee" then ActivityAction.assigned
    else ActivityAction.updated
  | _ => ActivityAction.updated

/-- Modelled from the spec: `updateTask(actor, taskId, patch)` of the task
controller, which is missing from the sources. Spec §4.2: load the task
(`NotFoundError` if absent), consult the permission policy
(`PermissionError` if disallowed), compute the diff, persist through the
schema's save pipeline, and append exactly one ActivityLog entry carrying
the diff. Returns the saved task together with the list of log entries
appended by the call. -/
def updateTaskWorkflow (role : UserRole) (actorId taskId : Nat)
    (found : Option Task) (p : TaskPatch) (now : Nat) :
    Except WorkflowError (Task × List ActivityEntry) :=
  match found with
  | none => Except.error WorkflowError.notFound
  | some t =>
    if canPerform role actorId t TaskAction.update then
      let patched := applyPatch t p
      match saveTask patched now with
      | Except.error msgs => Except.error (WorkflowError.validation msgs)
      | Except.ok saved =>
        let cs := computeChanges t patched
        Except.ok (saved, [logActivity taskId actorId (actionForChanges cs) (some cs) now])
    else Except.error WorkflowError.permission

/-- Modelled from the spec: `createTask(actor, fields)` of the task
controller, which is missing from the sources. Spec §4.2: forces
`assignee = actor` when the actor is a member and no assignee is supplied,
raises `PermissionError` when a member attempts to assign to someone else,
validates through the schema, persists, then appends one ActivityLog entry
with `action = created`. `newId` is the id the store assigns to the task. -/
def createTaskWorkflow (role : UserRole) (actorId newId : Nat)
    (input : TaskInput) (now : Nat) :
    Except WorkflowError (Task × List ActivityEntry) :=
  match role, input.assignee with
  | UserRole.member, some a =>
    if a ≠ actorId then Except.error WorkflowError.permission
    else
      match createTask input (some actorId) now with
      | Except.error msgs => Except.error (WorkflowError.validation msgs)
      | Except.ok t =>
        Except.ok (t, [logActivity newId actorId ActivityAction.created none now])
  | UserRole.member, none =>
    match createTask { input with assignee := some actorId } (some actorId) now with
    | Except.error msgs => Except.error (WorkflowError.validation msgs)
    | Except.ok t =>
      Except.ok (t, [logActivity newId actorId ActivityAction.created none now])
  | UserRole.admin, _ =>
    match createTask input (some actorId) now with
    | Except.error msgs => Except.error (WorkflowError.validation msgs)
    | Except.ok t =>
      Except.ok (t, [logActivity newId actorId ActivityAction.created none now])

/-- Modelled from the spec: `deleteTask(actor, taskId)` of the task
controller, which is missing from the sources. Spec §4.2: permission-gated
to admin; removes the task and appends one ActivityLog entry with
`action = deleted`. -/
def deleteTaskWorkflow (role : UserRole) (actorId taskId : Nat)
    (found : Option Task) (now : Nat) :
    Except WorkflowError (List ActivityEntry) :=
  match found with
  | none => Except.error WorkflowError.notFound
  | some t =>
    if canPerform role actorId t TaskAction.delete then
      Except.ok [logActivity taskId actorId ActivityAction.deleted none now]
    else Except.error WorkflowError.permission

/-- A user account, as far as the user-management claims need it. -/
structure UserAccount where
  id : Nat
  role : UserRole
deriving Repr, DecidableEq

/-- The stored collections the user-management endpoints read and write. -/
structure AppState where
  users : List UserAccount
  tasks : List Task
deriving Repr, DecidableEq

/-- Modelled from the spec: `PATCH /api/users/:id/role` of the user
controller, which is missing from the sources (only its tests are present).
Self-role-change is always denied, even for admins (spec §4.1); otherwise
an admin sets the target user's role. An error response leaves the state
unchanged. -/
def updateUserRole (actorId targetId : Nat) (newRole : UserRole)
    (st : AppState) : Except String AppState :=
  if actorId = targetId then
    Except.error "You cannot change your own role"
  else if st.users.all fun u => u.id ≠ targetId then
    Except.error "User not found"
  else
    Except.ok
      { st with
        users := st.users.map fun u =>
          if u.id = targetId then { u with role := newRole } else u }

/-- Modelled from the spec: `DELETE /api/users/:id` of the user controller,
which is missing from the sources (only its tests are present).
Self-deletion is always denied, even for admins; a user with at least one
assigned task cannot be deleted; otherwise the account is removed
(spec §3, §8 and the user-controller tests). An error response leaves the
state unchanged. -/
def deleteUser (actorId targetId : Nat) (st : AppState) :
    Except String AppState :=
  if actorId = targetId then
    Except.error "You cannot delete your own account"
  else if st.users.all fun u => u.id ≠ targetId then
    Except.error "User not found"
  else if st.tasks.any fun t => t.assignee == targetId then
    Except.error "Cannot delete user with assigned tasks"
  else
    Except.ok { st with users := st.users.filter fun u => u.id ≠ targetId }

/-- The client-side `isOverdue(dueDate)` of `client/src/utils/index.ts`:
`parseISO` the string, return `isValid(date) && date < new Date()`; any
parse failure yields false. The external `parseISO`/`isValid` pair is
abstracted as a `parse` function returning `none` for invalid input. -/
def clientIsOverdue (parse : String → Option Nat) (dueDate : String)
    (now : Nat) : Bool :=
  match parse dueDate with
  | none => false
  | some d => decide (d < now)

/-- A small stored task used to instantiate the universally quantified
theorems below on concrete data. -/
def sampleTask : Task :=
  { title := "Test Task", description := none, status := TaskStatus.todo,
    priority := TaskPriority.medium, dueDate := none,
    tags := ["Foo", "foo", " Bar "], assignee := 2, createdBy := 1 }

/-- The document `sampleTask` after the save pipeline: tags normalised. -/
def sampleTaskSaved : Task :=
  { sampleTask with tags := ["foo", "bar"] }

/-- A creation body with no title, used to instantiate the validation
theorem. -/
def sampleInputNoTitle : TaskInput :=
  { title := none, description := none, status := none, priority := none,
    dueDate := none, tags := none, assignee := some 1 }

/-- A minimal valid creation body omitting status and priority. -/
def sampleInputDefaults : TaskInput :=
  { title := some "T", description := none, status := none, priority := none,
    dueDate := none, tags := none, assignee := some 2 }

/-- The task `sampleInputDefaults` creates (actor 1, `now = 0`). -/
def sampleCreatedTask : Task :=
  { title := "T", description := none, status := TaskStatus.todo,
    priority := TaskPriority.medium, dueDate := none, tags := [],
    assignee := 2, createdBy := 1 }

/-- A stored task whose due date (5) is already past at `now = 10`. -/
def samplePastDueTask : Task :=
  { title := "Old", description := none, status := TaskStatus.todo,
    priority := TaskPriority.medium, dueDate := some 5, tags := [],
    assignee := 2, createdBy := 1 }

/-- A `done` task with a past due date (5 < 10). -/
def sampleDoneTask : Task :=
  { samplePastDueTask with status := TaskStatus.done }

/-- The status-only PATCH body `{status: done}`. -/
def sampleStatusPatch : TaskPatch :=
  { title := none, description := none, status := some TaskStatus.done,
    priority := none, dueDate := none, tags := none, assignee := none }

/-- The document `sampleTask` after the `{status: done}` update: status set, tags
normalised by the save pipeline. -/
def samplePatchedSaved : Task :=
  { sampleTask with status := TaskStatus.done, tags := ["foo", "bar"] }

/-- A member's creation body with no `assignee` field. -/
def sampleMemberInput : TaskInput :=
  { title := some "T", description := none, status := none, priority := none,
    dueDate := none, tags := none, assignee := none }

/-- A member's creation body naming someone else (user 5) as assignee. -/
def sampleInputOtherAssignee : TaskInput :=
  { sampleMemberInput with assignee := some 5 }

/-- The task member 3 gets from `sampleMemberInput`: assignee forced to 3. -/
def sampleMemberCreated : Task :=
  { title := "T", description := none, status := TaskStatus.todo,
    priority := TaskPriority.medium, dueDate := none, tags := [],
    assignee := 3, createdBy := 3 }

/-- A state with an admin (1), a member (2) and one task assigned to 2. -/
def sampleState : AppState :=
  { users := [{ id := 1, role := UserRole.admin },
              { id := 2, role := UserRole.member }],
    tasks := [sampleTask] }

/-- The same directory with no tasks at all. -/
def sampleStateNoTasks : AppState :=
  { sampleState with tasks := [] }

end TaskFlow

deriving instance DecidableEq for Except

namespace TaskFlow

/-- Helper: the save pipeline only rewrites `tags`, via `normalizeTags`. -/
theorem saveTask_ok_tags {t t2 : Task} {now : Nat}
    (h : saveTask t now = Except.ok t2) : t2.tags = normalizeTags t.tags := by
  unfold saveTask at h
  simp only at h
  split at h
  · cases h
    rfl
  · cases h

/-- Helper: the entries of `mapped.enum` kept by the pre-save filter point
back to their own first occurrence. -/
theorem normalizeTags_filter_indexOf {mapped : List String}
    {p : Nat × String}
    (hp : p ∈ mapped.enum.filter
      fun q => !(q.2 == "") && mapped.indexOf q.2 == q.1) :
    p.2 ≠ "" ∧ mapped.indexOf p.2 = p.1 := by
  have hcond := List.of_mem_filter hp
  have h1 : (!(p.2 == "")) = true ∧ (mapped.indexOf p.2 == p.1) = true := by
    exact Bool.and_eq_true_iff.mp hcond
  refine ⟨?_, ?_⟩
  · intro habs
    simp [habs] at h1
  · exact eq_of_beq h1.2

/-- Helper: the result of the tag-normalising hook has no duplicates. -/
theorem normalizeTags_nodup (l : List String) : (normalizeTags l).Nodup := by
  unfold normalizeTags
  set mapped := l.map fun t => jsTrim (jsToLower t) with hm
  have henum : mapped.enum.Nodup :=
    List.Nodup.of_map Prod.fst (List.nodup_enum_map_fst mapped)
  have hfil : (mapped.enum.filter
      fun q => !(q.2 == "") && mapped.indexOf q.2 == q.1).Nodup :=
    List.Nodup.filter _ henum
  refine List.Nodup.map_on ?_ hfil
  intro x hx y hy hxy
  have hxp := normalizeTags_filter_indexOf hx
  have hyp := normalizeTags_filter_indexOf hy
  have : x.1 = y.1 := by
    rw [← hxp.2, ← hyp.2, hxy]
  exact Prod.ext this hxy

/-- Helper: every stored tag is the non-empty lower-cased trim of some
input tag. -/
theorem normalizeTags_mem {l : List String} {s : String}
    (hs : s ∈ normalizeTags l) :
    s ≠ "" ∧ ∃ x ∈ l, s = jsTrim (jsToLower x) := by
  unfold normalizeTags at hs
  rcases List.mem_map.mp hs with ⟨p, hp, hps⟩
  have hcond := normalizeTags_filter_indexOf hp
  have hmem : p ∈ (l.map fun t => jsTrim (jsToLower t)).enum :=
    List.mem_of_mem_filter hp
  have hp2 : p.2 ∈ l.map fun t => jsTrim (jsToLower t) := by
    have := List.mem_enum_iff_getElem?.mp hmem
    exact List.getElem?_mem this
  rcases List.mem_map.mp hp2 with ⟨x, hxl, hx⟩
  exact ⟨hps ▸ hcond.1, x, hxl, by rw [← hps, ← hx]⟩

/-- C2: for every task, the `isOverdue` virtual is true iff the task has a
due date strictly before `now` and its status is not `done`; and the
`findOverdue` static returns exactly the tasks of the collection satisfying
that same predicate. -/
theorem isOverdue_iff_and_findOverdue (tasks : List Task) (t : Task) (now : Nat) :
    (isOverdue t now = true ↔
      (∃ d, t.dueDate = some d ∧ d < now) ∧ t.status ≠ TaskStatus.done)
    ∧ (t ∈ findOverdue tasks now ↔ t ∈ tasks ∧ isOverdue t now = true) := by
  constructor
  · unfold isOverdue
    cases h : t.dueDate with
    | none => simp [h]
    | some d => simp [h]
  · unfold findOverdue isOverdue
    rw [List.mem_filter]
    cases h : t.dueDate with
    | none => simp [h]
    | some d => simp [h]

/-- C5: on every save, the stored tag list is the input list with each tag
lower-cased and trimmed, empty strings dropped, and duplicates removed
keeping first occurrences — so it has no duplicates and only lower-cased
trimmed entries; on the concrete input `["Foo","foo"," Bar "]` the stored
list is `["foo","bar"]`. -/
theorem tags_normalized_on_save (t t2 : Task) (now : Nat) (l : List String) :
    (saveTask t now = Except.ok t2 → t2.tags = normalizeTags t.tags)
    ∧ (normalizeTags l).Nodup
    ∧ (∀ s ∈ normalizeTags l, s ≠ "" ∧ ∃ x ∈ l, s = jsTrim (jsToLower x))
    ∧ normalizeTags ["Foo", "foo", " Bar "] = ["foo", "bar"] :=
  ⟨fun h => saveTask_ok_tags h, normalizeTags_nodup l,
   fun _ hs => normalizeTags_mem hs, by decide⟩

/-- Witness for C5: the save pipeline on `sampleTask` (tags
`["Foo","foo"," Bar "]`, `now = 0`) stores exactly `["foo","bar"]`. -/
theorem tags_normalized_on_save_witness :
    sampleTaskSaved.tags = normalizeTags sampleTask.tags
    ∧ normalizeTags ["Foo", "foo", " Bar "] = ["foo", "bar"] :=
  ⟨(tags_normalized_on_save sampleTask sampleTaskSaved 0 ["Foo", "foo", " Bar "]).1
      (by decide),
   (tags_normalized_on_save sampleTask sampleTaskSaved 0 ["Foo", "foo", " Bar "]).2.2.2⟩

/-- Helper: a non-empty error list makes `createTask` fail with it. -/
theorem createTask_isErr {input : TaskInput} {createdBy : Option Nat}
    {now : Nat} (h : createErrors input createdBy now ≠ []) :
    createTask input createdBy now
      = Except.error (createErrors input createdBy now) := by
  unfold createTask
  rw [if_neg h]

/-- Helper: a non-empty validation list makes `saveTask` fail with it. -/
theorem saveTask_isErr {t : Task} {now : Nat}
    (h : validateTask t now ≠ []) :
    saveTask t now = Except.error (validateTask t now) := by
  unfold saveTask
  simp only
  rw [if_neg h]

/-- C6: `createTask` fails with a ValidationError when the title is missing
or longer than 200 characters, when the description is longer than 2000
characters, when the given tag list has more than 10 entries, or when the
supplied due date is not strictly in the future; when status or priority is
omitted the created task gets `status=todo` and `priority=medium`. -/
theorem createTask_validation (input : TaskInput) (createdBy : Option Nat) (now : Nat) :
    ((input.title = none →
        ∃ msgs, createTask input createdBy now = Except.error msgs
          ∧ "Task title is required" ∈ msgs)
     ∧ (∀ s, input.title = some s → 200 < (jsTrim s).length →
        ∃ msgs, createTask input createdBy now = Except.error msgs
          ∧ "Title cannot exceed 200 characters" ∈ msgs)
     ∧ (∀ s, input.description = some s → 2000 < (jsTrim s).length →
        ∃ msgs, createTask input createdBy now = Except.error msgs
          ∧ "Description cannot exceed 2000 characters" ∈ msgs)
     ∧ (∀ l, input.tags = some l → 10 < l.length →
        ∃ msgs, createTask input createdBy now = Except.error msgs
          ∧ "Cannot have more than 10 tags" ∈ msgs)
     ∧ (∀ d, input.dueDate = some d → d ≤ now →
        ∃ msgs, createTask input createdBy now = Except.error msgs
          ∧ "Due date must be in the future" ∈ msgs))
    ∧ (input.status = none → input.priority = none →
        ∀ t, createTask input createdBy now = Except.ok t →
          t.status = TaskStatus.todo ∧ t.priority = TaskPriority.medium) := by
  constructor
  · refine ⟨?_, ?_, ?_, ?_, ?_⟩
    · intro h
      have hmem : "Task title is required" ∈ createErrors input createdBy now := by
        simp [createErrors, h]
      exact ⟨_, createTask_isErr (List.ne_nil_of_mem hmem), hmem⟩
    · intro s hs hlen
      have hmem : "Title cannot exceed 200 characters"
          ∈ createErrors input createdBy now := by
        simp [createErrors, hs, hlen]
      exact ⟨_, createTask_isErr (List.ne_nil_of_mem hmem), hmem⟩
    · intro s hs hlen
      have hmem : "Description cannot exceed 2000 characters"
          ∈ createErrors input createdBy now := by
        simp [createErrors, hs, hlen]
      exact ⟨_, createTask_isErr (List.ne_nil_of_mem hmem), hmem⟩
    · intro l hl hlen
      have hmem : "Cannot have more than 10 tags"
          ∈ createErrors input createdBy now := by
        simp [createErrors, hl, hlen]
      exact ⟨_, createTask_isErr (List.ne_nil_of_mem hmem), hmem⟩
    · intro d hd hle
      have hmem : "Due date must be in the future"
          ∈ createErrors input createdBy now := by
        simp [createErrors, hd, Nat.not_lt.mpr hle]
      exact ⟨_, createTask_isErr (List.ne_nil_of_mem hmem), hmem⟩
  · intro hst hpr t h
    unfold createTask at h
    split at h
    · split at h
      · cases h
        simp [hst, hpr]
      · cases h
    · cases h

/-- Witness for C6: a body without a title fails, and a minimal body
omitting status and priority creates a `todo`/`medium` task. -/
theorem createTask_validation_witness :
    (∃ msgs, createTask sampleInputNoTitle (some 1) 0 = Except.error msgs
      ∧ "Task title is required" ∈ msgs)
    ∧ (sampleCreatedTask.status = TaskStatus.todo
        ∧ sampleCreatedTask.priority = TaskPriority.medium) :=
  ⟨(createTask_validation sampleInputNoTitle (some 1) 0).1.1 (by decide),
   (createTask_validation sampleInputDefaults (some 1) 0).2 (by decide) (by decide)
     sampleCreatedTask (by decide)⟩

/-- Helper: a stored due date that is not in the future puts the due-date
message into the validation list of any save. -/
theorem validateTask_dueDate_mem {t : Task} {d now : Nat}
    (hd : t.dueDate = some d) (hle : ¬ now < d) :
    "Due date must be in the future" ∈ validateTask t now := by
  simp [validateTask, hd, hle]

/-- C10: the due-date validator applies on every save, not only at
creation: a task whose stored due date is in the past fails any save with
the message "Due date must be in the future" — including a save that only
sets `status = done` and does not touch the due date. -/
theorem dueDate_validator_on_every_save (t : Task) (d now : Nat)
    (hd : t.dueDate = some d) (hpast : d < now) :
    (∃ msgs, saveTask t now = Except.error msgs
      ∧ "Due date must be in the future" ∈ msgs)
    ∧ (∃ msgs, saveTask { t with status := TaskStatus.done } now = Except.error msgs
      ∧ "Due date must be in the future" ∈ msgs) := by
  have hle : ¬ now < d := Nat.lt_asymm hpast
  have h1 : "Due date must be in the future" ∈ validateTask t now :=
    validateTask_dueDate_mem hd hle
  have h2 : "Due date must be in the future"
      ∈ validateTask { t with status := TaskStatus.done } now :=
    validateTask_dueDate_mem (by simpa using hd) hle
  exact ⟨⟨_, saveTask_isErr (List.ne_nil_of_mem h1), h1⟩,
    ⟨_, saveTask_isErr (List.ne_nil_of_mem h2), h2⟩⟩

/-- Witness for C10: the task with due date 5 cannot be saved at `now = 10`,
even after setting its status to `done`. -/
theorem dueDate_validator_on_every_save_witness :
    (∃ msgs, saveTask samplePastDueTask 10 = Except.error msgs
      ∧ "Due date must be in the future" ∈ msgs)
    ∧ (∃ msgs, saveTask { samplePastDueTask with status := TaskStatus.done } 10
        = Except.error msgs ∧ "Due date must be in the future" ∈ msgs) :=
  dueDate_validator_on_every_save samplePastDueTask 5 10 (by decide) (by decide)

/-- C9: the client-side `isOverdue(dueDate)` is true iff the string parses
to a date strictly before `now`; any unparseable input yields false; and the
task status is ignored, so a `done` task with a past due date is classified
overdue by the client while the server virtual says it is not. -/
theorem client_isOverdue_ignores_status (parse : String → Option Nat)
    (s : String) (now : Nat) :
    (clientIsOverdue parse s now = true ↔ ∃ d, parse s = some d ∧ d < now)
    ∧ (parse s = none → clientIsOverdue parse s now = false)
    ∧ (∀ (t : Task) (d : Nat), parse s = some d → t.dueDate = some d →
        t.status = TaskStatus.done → d < now →
        clientIsOverdue parse s now = true ∧ isOverdue t now = false) := by
  refine ⟨?_, ?_, ?_⟩
  · unfold clientIsOverdue
    cases h : parse s with
    | none => simp [h]
    | some d => simp [h]
  · intro h
    simp [clientIsOverdue, h]
  · intro t d hp hdue hst hlt
    constructor
    · simp [clientIsOverdue, hp, hlt]
    · simp [isOverdue, hdue, hst]

/-- Witness for C9: with a parse yielding date 5 at `now = 10`, the client
marks the string overdue while the server virtual says the matching `done`
task is not overdue. -/
theorem client_isOverdue_ignores_status_witness :
    clientIsOverdue (fun _ => some 5) "2020-01-01" 10 = true
    ∧ isOverdue sampleDoneTask 10 = false :=
  (client_isOverdue_ignores_status (fun _ => some 5) "2020-01-01" 10).2.2
    sampleDoneTask 5 rfl (by decide) (by decide) (by decide)

/-- Helper: a successful creation stores exactly the assignee supplied to
the schema. -/
theorem createTask_ok_assignee {input : TaskInput} {cb : Option Nat}
    {now : Nat} {t : Task} (h : createTask input cb now = Except.ok t) :
    input.assignee = some t.assignee := by
  cases ha : input.assignee with
  | none =>
    exfalso
    have hmem : "Assignee is required" ∈ createErrors input cb now := by
      simp [createErrors, ha]
    rw [createTask_isErr (List.ne_nil_of_mem hmem)] at h
    cases h
  | some a =>
    unfold createTask at h
    rw [ha] at h
    split at h
    · split at h
      · rename_i heqt heqa herrs
        cases h
        simpa using heqa
      · cases h
    · cases h

/-- C1: a successful `updateTask` call appends exactly one ActivityLog
entry, attributed to the acting user, whose `changes` payload is exactly
the field diff between old and patched task; a status-only patch from
`todo` to `done` yields one entry with `action = status_changed` and
`changes = {status: {from: "todo", to: "done"}}` — and the successful
create and delete operations each append exactly one entry attributed to
the actor as well. -/
theorem mutations_log_exactly_one_entry (role : UserRole)
    (actorId taskId newId : Nat) (t : Task) (input : TaskInput)
    (p : TaskPatch) (now : Nat) :
    (∀ saved entries,
      updateTaskWorkflow role actorId taskId (some t) p now
          = Except.ok (saved, entries) →
      ((∃ e, entries = [e] ∧ e.userId = actorId
          ∧ e.changes = some (computeChanges t (applyPatch t p)))
        ∧ (t.status = TaskStatus.todo → p = sampleStatusPatch →
            entries = [logActivity taskId actorId ActivityAction.status_changed
              (some [⟨"status", "todo", "done"⟩]) now])))
    ∧ (∀ created entries,
      createTaskWorkflow role actorId newId input now
          = Except.ok (created, entries) →
      ∃ e, entries = [e] ∧ e.userId = actorId)
    ∧ (∀ entries,
      deleteTaskWorkflow role actorId taskId (some t) now
          = Except.ok entries →
      ∃ e, entries = [e] ∧ e.userId = actorId) := by
  refine ⟨?_, ?_, ?_⟩
  · intro saved entries h
    unfold updateTaskWorkflow at h
    split at h
    · cases h
    · rename_i t0 heq
      injection heq with heq'
      subst heq'
      simp only at h
      split at h
      · split at h
        · cases h
        · cases h
          constructor
          · exact ⟨_, rfl, rfl, rfl⟩
          · intro hst hp
            subst hp
            have hcs : computeChanges t (applyPatch t sampleStatusPatch)
                = [⟨"status", "todo", "done"⟩] := by
              cases t with
              | mk ti de st0 pr du tg asg cb =>
                simp only [Task.status] at hst
                subst hst
                simp [applyPatch, computeChanges, sampleStatusPatch,
                  TaskStatus.toStr,
                  show (TaskStatus.todo == TaskStatus.done) = false from rfl]
            simp only [hcs]
            rfl
      · cases h
  · intro created entries h
    unfold createTaskWorkflow at h
    split at h
    · split at h
      · cases h
      · split at h
        · cases h
        · cases h
          exact ⟨_, rfl, rfl⟩
    · split at h
      · cases h
      · cases h
        exact ⟨_, rfl, rfl⟩
    · split at h
      · cases h
      · cases h
        exact ⟨_, rfl, rfl⟩
  · intro entries h
    unfold deleteTaskWorkflow at h
    split at h
    · cases h
    · split at h
      · cases h
        exact ⟨_, rfl, rfl⟩
      · cases h

/-- Witness for C1: the admin's `{status: done}` PATCH on `sampleTask`
produces exactly one `status_changed` entry with the
`{status: {from: "todo", to: "done"}}` payload, attributed to actor 1. -/
theorem mutations_log_exactly_one_entry_witness :
    ∃ e, [logActivity 7 1 ActivityAction.status_changed
        (some [⟨"status", "todo", "done"⟩]) 10] = [e]
      ∧ e.userId = 1
      ∧ e.changes = some (computeChanges sampleTask
          (applyPatch sampleTask sampleStatusPatch)) :=
  (((mutations_log_exactly_one_entry UserRole.admin 1 7 0 sampleTask
      sampleMemberInput sampleStatusPatch 10).1 samplePatchedSaved
      [logActivity 7 1 ActivityAction.status_changed
        (some [⟨"status", "todo", "done"⟩]) 10] (by decide))).1

/-- C3: a task created by a member is always assigned to that member —
with no `assignee` field the member's own id is stored — and a member's
attempt to create a task assigned to someone else fails with a
PermissionError. -/
theorem member_create_forces_self_assignee (actorId newId : Nat)
    (input : TaskInput) (now : Nat) :
    (∀ t entries,
      createTaskWorkflow UserRole.member actorId newId input now
          = Except.ok (t, entries) →
      t.assignee = actorId)
    ∧ (input.assignee = none →
      ∀ t entries,
        createTaskWorkflow UserRole.member actorId newId input now
            = Except.ok (t, entries) →
        t.assignee = actorId)
    ∧ (∀ a, input.assignee = some a → a ≠ actorId →
      createTaskWorkflow UserRole.member actorId newId input now
        = Except.error WorkflowError.permission) := by
  have main : ∀ t entries,
      createTaskWorkflow UserRole.member actorId newId input now
          = Except.ok (t, entries) →
      t.assignee = actorId := by
    intro t entries h
    unfold createTaskWorkflow at h
    split at h
    · rename_i a heqa
      split at h
      · cases h
      · rename_i hnotne
        split at h
        · cases h
        · rename_i t0 hcr
          cases h
          have hassn := createTask_ok_assignee hcr
          rw [heqa] at hassn
          injection hassn with hassn'
          rw [← hassn']
          exact not_not.mp hnotne
    · rename_i heqa
      split at h
      · cases h
      · rename_i t0 hcr
        cases h
        have hassn := createTask_ok_assignee hcr
        simp only [TaskInput.assignee] at hassn
        injection hassn with hassn'
        exact hassn'.symm
    · exact absurd ‹UserRole.member = UserRole.admin› (by decide)
  refine ⟨main, fun _ => main, ?_⟩
  intro a ha hne
  unfold createTaskWorkflow
  rw [ha]
  simp only
  rw [if_pos hne]

/-- Witness for C3: member 3 creating with no assignee gets a task assigned
to 3; member 3 naming user 5 gets a PermissionError. -/
theorem member_create_forces_self_assignee_witness :
    sampleMemberCreated.assignee = 3
    ∧ createTaskWorkflow UserRole.member 3 9 sampleInputOtherAssignee 0
        = Except.error WorkflowError.permission :=
  ⟨(member_create_forces_self_assignee 3 9 sampleMemberInput 0).1
      sampleMemberCreated [logActivity 9 3 ActivityAction.created none 0] (by decide),
   (member_create_forces_self_assignee 3 9 sampleInputOtherAssignee 0).2.2 5
      (by decide) (by decide)⟩

/-- C4: a member's delete attempt fails with a PermissionError (mapped to
HTTP 403) for every task — including tasks the member created or is
assigned to — while an admin's delete succeeds for any task. -/
theorem only_admin_deletes (actorId taskId : Nat) (t : Task) (now : Nat) :
    (deleteTaskWorkflow UserRole.member actorId taskId (some t) now
        = Except.error WorkflowError.permission
      ∧ WorkflowError.permission.httpStatus = 403)
    ∧ ∃ entries, deleteTaskWorkflow UserRole.admin actorId taskId (some t) now
        = Except.ok entries := by
  refine ⟨⟨?_, rfl⟩,
    ⟨[logActivity taskId actorId ActivityAction.deleted none now], ?_⟩⟩
  · simp [deleteTaskWorkflow, canPerform]
  · simp [deleteTaskWorkflow, canPerform]

/-- C7: for every actor — admins included — changing one's own role or
deleting one's own account is denied; the error response leaves the stored
users and their roles untouched (an `Except.error` result carries no state
change in this embedding). -/
theorem self_ops_always_denied (actorId : Nat) (newRole : UserRole)
    (st : AppState) :
    updateUserRole actorId actorId newRole st
        = Except.error "You cannot change your own role"
    ∧ deleteUser actorId actorId st
        = Except.error "You cannot delete your own account" := by
  constructor
  · simp [updateUserRole]
  · simp [deleteUser]

/-- C8: when an admin deletes a different existing user, the deletion
fails iff the target has at least one assigned task: with such a task it
errors, with none it succeeds and removes the account. -/
theorem delete_user_with_assigned_tasks (actorId targetId : Nat)
    (st : AppState) (hne : actorId ≠ targetId)
    (hmem : ∃ u ∈ st.users, u.id = targetId) :
    ((∃ t ∈ st.tasks, t.assignee = targetId) →
      deleteUser actorId targetId st
        = Except.error "Cannot delete user with assigned tasks")
    ∧ ((∀ t ∈ st.tasks, t.assignee ≠ targetId) →
      deleteUser actorId targetId st
        = Except.ok
            { st with users := st.users.filter fun u => u.id ≠ targetId }) := by
  have hall : (st.users.all fun u => u.id ≠ targetId) = false := by
    rcases hmem with ⟨u, hu, hid⟩
    simp [List.all_eq_true]
    exact ⟨u, hu, hid⟩
  constructor
  · intro hex
    rcases hex with ⟨t, ht, hassn⟩
    have hany : (st.tasks.any fun tk => tk.assignee == targetId) = true := by
      simp [List.any_eq_true]
      exact ⟨t, ht, hassn⟩
    simp [deleteUser, hne, hall, hany]
    exact hmem
  · intro hforall
    have hany : (st.tasks.any fun tk => tk.assignee == targetId) = false := by
      simp [List.any_eq_true]
      intro t ht
      exact hforall t ht
    simp [deleteUser, hne, hall, hany]
    exact hmem

/-- Witness for C8: deleting member 2 fails while 2 is assigned
`sampleTask`, and succeeds in the no-task state, leaving only user 1. -/
theorem delete_user_with_assigned_tasks_witness :
    deleteUser 1 2 sampleState
        = Except.error "Cannot delete user with assigned tasks"
    ∧ deleteUser 1 2 sampleStateNoTasks
        = Except.ok
            { sampleStateNoTasks with
              users := sampleStateNoTasks.users.filter fun u => u.id ≠ 2 } :=
  ⟨(delete_user_with_assigned_tasks 1 2 sampleState (by decide)
      ⟨{ id := 2, role := UserRole.member }, by decide, rfl⟩).1
      ⟨sampleTask, by decide, rfl⟩,
   (delete_user_with_assigned_tasks 1 2 sampleStateNoTasks (by decide)
      ⟨{ id := 2, role := UserRole.member }, by decide, rfl⟩).2
      (by intro t ht; cases ht)⟩

end TaskFlow
